import Mathlib

/-!
Verification of the tenant-isolation and authorization core of the
clinicpro-backend repository, shallowly embedded in Lean 4.

Query filters and creation payloads are modelled as association lists of
string key/value pairs where, as for JavaScript object literals built by
spread (`{...a, k: v}`), the binding written last wins.  Timestamps are
natural numbers (epoch milliseconds).  Mongoose documents are Lean
structures; collections are lists of documents.
-/

namespace ClinicPro

/-- A query filter / payload object: association list, last binding wins
(JavaScript object-spread semantics). -/
abbrev Filter := List (String × String)

/-- Key lookup with last-binding-wins semantics, mirroring the fact that in
`{...additionalFilter, tenant_id: t}` the later `tenant_id` entry overrides
any earlier one. -/
def lookupLast (f : Filter) (k : String) : Option String :=
  f.foldl (fun acc kv => if kv.1 = k then some kv.2 else acc) none

/-- The request-scoped authentication context attached by the middleware:
`req.user?.role`, `req.user?._id`, `req.tenant_id`, `req.clinic_id`.
`none` models an absent (`undefined`) value. -/
structure AuthReq where
  userRole : Option String
  userId : Option String
  tenant_id : Option String
  clinic_id : Option String
deriving DecidableEq, Repr

/-- JavaScript truthiness of an optional string (`undefined` and `""` are
falsy), used by the `if (!req.tenant_id)` guards in the middleware. -/
def strTruthy : Option String → Bool
  | none => false
  | some s => if s = "" then false else true

/-- Embedding of `getTenantScopedFilter` (middleware/auth): super admins get
the additional filter back unchanged; everyone else needs a truthy
`req.tenant_id`, which is spread into the filter last. -/
def getTenantScopedFilter (req : AuthReq) (additionalFilter : Filter) :
    Except String Filter :=
  if req.userRole = some "super_admin" then
    Except.ok additionalFilter
  else
    match req.tenant_id with
    | none => Except.error "Tenant context is required for this operation"
    | some t =>
      if t = "" then Except.error "Tenant context is required for this operation"
      else Except.ok (additionalFilter ++ [("tenant_id", t)])

/-- Embedding of `canAccessTenant` (middleware/auth). -/
def canAccessTenant (req : AuthReq) (targetTenantId : String) : Bool :=
  if req.userRole = some "super_admin" then true
  else req.tenant_id == some targetTenantId

/-- Outcome of an Express middleware: either fall through to the next
handler or halt with a status code and message. -/
inductive MWOutcome where
  | pass : MWOutcome
  | halt (status : Nat) (message : String) : MWOutcome
deriving DecidableEq, Repr

/-- Embedding of the `validateTenantAccess` middleware; the resource tenant
extractor is passed as an already-evaluated `Except` (a thrown extractor
maps to the 500 branch). -/
def validateTenantAccess (req : AuthReq) (resourceTenantId : Except String String) :
    MWOutcome :=
  if req.userRole = some "super_admin" then MWOutcome.pass
  else
    match resourceTenantId with
    | Except.error _ => MWOutcome.halt 500 "Error validating tenant access"
    | Except.ok rtid =>
      if canAccessTenant req rtid = false then
        MWOutcome.halt 403 "Access denied. You can only access data from your organization."
      else MWOutcome.pass

/-- Embedding of `addTenantToData` (middleware/auth): super admins without a
tenant context pass the payload through; everyone else needs a truthy
tenant context, which is spread into the payload last. -/
def addTenantToData (req : AuthReq) (data : Filter) : Except String Filter :=
  match req.tenant_id with
  | none =>
    if req.userRole = some "super_admin" then Except.ok data
    else Except.error "Tenant context is required for this operation"
  | some t =>
    if t = "" then
      if req.userRole = some "super_admin" then Except.ok data
      else Except.error "Tenant context is required for this operation"
    else Except.ok (data ++ [("tenant_id", t)])

theorem lookupLast_append_last (f : Filter) (k v : String) :
    lookupLast (f ++ [(k, v)]) k = some v := by
  unfold lookupLast
  rw [List.foldl_append]
  simp

theorem lookupLast_append_other (f : Filter) (k v k' : String) (h : k' ≠ k) :
    lookupLast (f ++ [(k, v)]) k' = lookupLast f k' := by
  unfold lookupLast
  rw [List.foldl_append]
  simp only [List.foldl_cons, List.foldl_nil]
  rw [if_neg (fun hh : (k, v).1 = k' => h hh.symm)]

/-- Claim C1: for every non-super-admin principal whose request carries a
non-null tenant context, `getTenantScopedFilter` returns a filter whose
`tenant_id` equals that principal's own tenant id and never a different
tenant's id; if the tenant context is absent the call fails with the
tenant-context-required error instead of returning any filter. -/
theorem spec_C1_tenant_scoped_filter (req : AuthReq) (af : Filter)
    (hrole : req.userRole ≠ some "super_admin") :
    (∀ t, req.tenant_id = some t → t ≠ "" →
      ∃ g, getTenantScopedFilter req af = Except.ok g ∧
        lookupLast g "tenant_id" = some t ∧
        ∀ u, lookupLast g "tenant_id" = some u → u = t) ∧
    ((req.tenant_id = none ∨ req.tenant_id = some "") →
      getTenantScopedFilter req af =
        Except.error "Tenant context is required for this operation") := by
  constructor
  · intro t ht hne
    refine ⟨af ++ [("tenant_id", t)], ?_, ?_, ?_⟩
    · unfold getTenantScopedFilter
      rw [if_neg hrole, ht]
      simp [hne]
    · exact lookupLast_append_last af "tenant_id" t
    · intro u hu
      rw [lookupLast_append_last af "tenant_id" t] at hu
      exact (Option.some.injEq _ _ ▸ hu).symm ▸ rfl
  · intro habs
    unfold getTenantScopedFilter
    rw [if_neg hrole]
    rcases habs with h | h
    · rw [h]
    · rw [h]
      simp

/-- Concrete instantiation of the C1 theorem: a doctor in tenant `t1`. -/
theorem spec_C1_tenant_scoped_filter_witness :
    (∃ g, getTenantScopedFilter ⟨some "doctor", some "u1", some "t1", some "c1"⟩
        [("clinic_id", "c1")] = Except.ok g ∧
      lookupLast g "tenant_id" = some "t1" ∧
      ∀ u, lookupLast g "tenant_id" = some u → u = "t1") ∧
    getTenantScopedFilter ⟨some "doctor", some "u1", none, some "c1"⟩
        [("clinic_id", "c1")] =
      Except.error "Tenant context is required for this operation" := by
  have h1 := spec_C1_tenant_scoped_filter
    ⟨some "doctor", some "u1", some "t1", some "c1"⟩ [("clinic_id", "c1")] (by decide)
  have h2 := spec_C1_tenant_scoped_filter
    ⟨some "doctor", some "u1", none, some "c1"⟩ [("clinic_id", "c1")] (by decide)
  exact ⟨h1.1 "t1" rfl (by decide), h2.2 (Or.inl rfl)⟩

/-- Claim C7: for every super-admin principal and every extra filter,
`getTenantScopedFilter` returns the extra filter unchanged, adding no
`tenant_id` constraint (and no request parameter alters this). -/
theorem spec_C7_super_admin_bypass (req : AuthReq) (af : Filter)
    (h : req.userRole = some "super_admin") :
    getTenantScopedFilter req af = Except.ok af ∧
    (lookupLast af "tenant_id" = none →
      ∃ g, getTenantScopedFilter req af = Except.ok g ∧
        lookupLast g "tenant_id" = none) := by
  have hmain : getTenantScopedFilter req af = Except.ok af := by
    unfold getTenantScopedFilter
    rw [if_pos h]
  exact ⟨hmain, fun hnone => ⟨af, hmain, hnone⟩⟩

/-- Concrete instantiation of the C7 theorem: a super admin with a tenant
context still gets the extra filter back untouched. -/
theorem spec_C7_super_admin_bypass_witness :
    getTenantScopedFilter ⟨some "super_admin", some "sa1", some "t9", none⟩
      [("clinic_id", "c1")] = Except.ok [("clinic_id", "c1")] :=
  (spec_C7_super_admin_bypass ⟨some "super_admin", some "sa1", some "t9", none⟩
    [("clinic_id", "c1")] rfl).1

/-- Claim C8: `canAccessTenant` is true iff the principal is a super admin
or its tenant id equals the target tenant id; consequently a
non-super-admin principal whose tenant differs from the resource tenant is
halted with 403 by `validateTenantAccess`, regardless of role. -/
theorem spec_C8_can_access_tenant (req : AuthReq) (target : String) :
    (canAccessTenant req target = true ↔
      (req.userRole = some "super_admin" ∨ req.tenant_id = some target)) ∧
    (req.userRole ≠ some "super_admin" → req.tenant_id ≠ some target →
      validateTenantAccess req (Except.ok target) =
        MWOutcome.halt 403 "Access denied. You can only access data from your organization.") := by
  constructor
  · unfold canAccessTenant
    by_cases h : req.userRole = some "super_admin"
    · simp [h]
    · simp [h]
  · intro hrole htid
    unfold validateTenantAccess
    rw [if_neg hrole]
    have hfalse : canAccessTenant req target = false := by
      unfold canAccessTenant
      rw [if_neg hrole]
      simp [htid]
    simp [hfalse]

/-- Concrete instantiation of the C8 theorem: an admin of tenant `tX`
cannot access tenant `tY`. -/
theorem spec_C8_can_access_tenant_witness :
    (canAccessTenant ⟨some "admin", some "u1", some "tX", none⟩ "tY" = true ↔
      ((some "admin" : Option String) = some "super_admin" ∨
        (some "tX" : Option String) = some "tY")) ∧
    validateTenantAccess ⟨some "admin", some "u1", some "tX", none⟩ (Except.ok "tY") =
      MWOutcome.halt 403 "Access denied. You can only access data from your organization." := by
  have h := spec_C8_can_access_tenant ⟨some "admin", some "u1", some "tX", none⟩ "tY"
  exact ⟨h.1, h.2 (by decide) (by decide)⟩

/-- Claim C10: for every non-super-admin request with a truthy tenant
context, `addTenantToData` returns the payload with `tenant_id` forced to
the request's tenant id (overwriting any client-supplied `tenant_id`),
while every other key keeps its original binding. -/
theorem spec_C10_add_tenant_to_data (req : AuthReq) (data : Filter) (t : String)
    (_hrole : req.userRole ≠ some "super_admin")
    (ht : req.tenant_id = some t) (hne : t ≠ "") :
    ∃ g, addTenantToData req data = Except.ok g ∧
      lookupLast g "tenant_id" = some t ∧
      (∀ u, lookupLast g "tenant_id" = some u → u = t) ∧
      (∀ k, k ≠ "tenant_id" → lookupLast g k = lookupLast data k) := by
  refine ⟨data ++ [("tenant_id", t)], ?_, ?_, ?_, ?_⟩
  · unfold addTenantToData
    rw [ht]
    simp [hne]
  · exact lookupLast_append_last data "tenant_id" t
  · intro u hu
    rw [lookupLast_append_last data "tenant_id" t] at hu
    exact (Option.some.injEq _ _ ▸ hu).symm ▸ rfl
  · intro k hk
    exact lookupLast_append_other data "tenant_id" t k hk

/-- Concrete instantiation of the C10 theorem: a receptionist of tenant
`t1` creating a record whose body smuggles `tenant_id = t2`; the foreign id
is overwritten and the other field survives. -/
theorem spec_C10_add_tenant_to_data_witness :
    ∃ g, addTenantToData ⟨some "receptionist", some "u7", some "t1", some "c1"⟩
        [("tenant_id", "t2"), ("name", "Eve")] = Except.ok g ∧
      lookupLast g "tenant_id" = some "t1" ∧
      (∀ u, lookupLast g "tenant_id" = some u → u = "t1") ∧
      (∀ k, k ≠ "tenant_id" →
        lookupLast g k = lookupLast [("tenant_id", "t2"), ("name", "Eve")] k) :=
  spec_C10_add_tenant_to_data ⟨some "receptionist", some "u7", some "t1", some "c1"⟩
    [("tenant_id", "t2"), ("name", "Eve")] "t1" (by decide) rfl (by decide)

/-- A persisted SuperAdmin document (the fields the lock/login logic
touches).  Timestamps are epoch milliseconds; in the source, a stored
`locked_until` is a `Date` object and is therefore always truthy, so
`Option Nat` with `none` for an absent field is a faithful model. -/
structure SuperAdminRec where
  _id : String
  is_active : Bool
  login_attempts : Nat
  locked_until : Option Nat
  last_login : Option Nat
deriving DecidableEq, Repr

def twoHoursMs : Nat := 2 * 60 * 60 * 1000

/-- Embedding of `SuperAdminSchema.methods.isLocked`: locked iff
`locked_until` is present and strictly in the future. -/
def isLocked (sa : SuperAdminRec) (now : Nat) : Bool :=
  match sa.locked_until with
  | some t => if now < t then true else false
  | none => false

/-- The guard `this.locked_until && this.locked_until < Date.now()` of
`incrementLoginAttempts`: a stored lock that has already expired. -/
def lockExpired (sa : SuperAdminRec) (now : Nat) : Bool :=
  match sa.locked_until with
  | some t => if t < now then true else false
  | none => false

/-- The non-expired branch of `incrementLoginAttempts`: `$inc` the counter
and set the lock when the incremented counter reaches 5 on an unlocked
account. -/
def incrementStep (sa : SuperAdminRec) (now : Nat) : SuperAdminRec :=
  if sa.login_attempts + 1 ≥ 5 ∧ isLocked sa now = false then
    { sa with login_attempts := sa.login_attempts + 1,
              locked_until := some (now + twoHoursMs) }
  else
    { sa with login_attempts := sa.login_attempts + 1 }

/-- Embedding of `SuperAdminSchema.methods.incrementLoginAttempts`.  When a
previous lock has expired the counter restarts at 1; the source then does
`delete updates.locked_until`, which removes the key from the fresh update
object (where it was never set) rather than unsetting the stored field, so
the stored `locked_until` is left untouched. -/
def incrementLoginAttempts (sa : SuperAdminRec) (now : Nat) : SuperAdminRec :=
  if lockExpired sa now = true then { sa with login_attempts := 1 }
  else incrementStep sa now

/-- Embedding of `SuperAdminSchema.methods.resetLoginAttempts`.  The update
document sets `login_attempts` and `last_login` only; the source's
`delete updates.locked_until` removes the key from the update object it
just built (a no-op, since the key was never added), so the stored
`locked_until` is NOT cleared. -/
def resetLoginAttempts (sa : SuperAdminRec) (now : Nat) : SuperAdminRec :=
  { sa with login_attempts := 0, last_login := some now }

/-- Outcome of `SuperAdminAuthController.login` for a found, active
super-admin record. -/
inductive LoginOutcome where
  | locked (locked_until : Option Nat)
  | invalidCredentials
  | success
deriving DecidableEq, Repr

/-- Embedding of the credential phase of `SuperAdminAuthController.login`:
locked accounts are rejected (423) before the credential check; a failed
check increments the attempt counter (401); a successful check resets it
(200). -/
def superAdminLogin (sa : SuperAdminRec) (passwordValid : Bool) (now : Nat) :
    LoginOutcome × SuperAdminRec :=
  if isLocked sa now = true then (LoginOutcome.locked sa.locked_until, sa)
  else if passwordValid = false then
    (LoginOutcome.invalidCredentials, incrementLoginAttempts sa now)
  else
    (LoginOutcome.success, resetLoginAttempts sa now)

/-- `n` consecutive failed login attempts against the same record, all at
time `now`. -/
def failedLogins (sa : SuperAdminRec) (now : Nat) : Nat → SuperAdminRec
  | 0 => sa
  | n + 1 => (superAdminLogin (failedLogins sa now n) false now).snd

theorem isLocked_none (sa : SuperAdminRec) (now : Nat)
    (h : sa.locked_until = none) : isLocked sa now = false := by
  simp [isLocked, h]

theorem lockExpired_none (sa : SuperAdminRec) (now : Nat)
    (h : sa.locked_until = none) : lockExpired sa now = false := by
  simp [lockExpired, h]

theorem lockExpired_false_of_some (sa : SuperAdminRec) (now t : Nat)
    (h : sa.locked_until = some t) (hge : ¬ t < now) :
    lockExpired sa now = false := by
  simp [lockExpired, h, hge]

theorem lockExpired_true_of_some (sa : SuperAdminRec) (now t : Nat)
    (h : sa.locked_until = some t) (hlt : t < now) :
    lockExpired sa now = true := by
  simp [lockExpired, h, hlt]

theorem incrementStep_attempts (sa : SuperAdminRec) (now : Nat) :
    (incrementStep sa now).login_attempts = sa.login_attempts + 1 := by
  unfold incrementStep
  by_cases hc : sa.login_attempts + 1 ≥ 5 ∧ isLocked sa now = false
  · rw [if_pos hc]
  · rw [if_neg hc]

theorem incrementStep_locks (sa : SuperAdminRec) (now : Nat)
    (h5 : sa.login_attempts + 1 ≥ 5) (hu : isLocked sa now = false) :
    (incrementStep sa now).locked_until = some (now + twoHoursMs) := by
  unfold incrementStep
  rw [if_pos ⟨h5, hu⟩]

theorem incrementStep_low (sa : SuperAdminRec) (now : Nat)
    (h5 : ¬ sa.login_attempts + 1 ≥ 5) :
    incrementStep sa now = { sa with login_attempts := sa.login_attempts + 1 } := by
  unfold incrementStep
  rw [if_neg (fun hc => h5 hc.1)]

theorem incrementLoginAttempts_not_expired (sa : SuperAdminRec) (now : Nat)
    (h : lockExpired sa now = false) :
    incrementLoginAttempts sa now = incrementStep sa now := by
  simp [incrementLoginAttempts, h]

theorem incrementLoginAttempts_expired (sa : SuperAdminRec) (now : Nat)
    (h : lockExpired sa now = true) :
    incrementLoginAttempts sa now = { sa with login_attempts := 1 } := by
  simp [incrementLoginAttempts, h]

theorem superAdminLogin_failed (sa : SuperAdminRec) (now : Nat)
    (hl : isLocked sa now = false) :
    superAdminLogin sa false now =
      (LoginOutcome.invalidCredentials, incrementLoginAttempts sa now) := by
  simp [superAdminLogin, hl]

theorem superAdminLogin_locked (sa : SuperAdminRec) (pw : Bool) (now : Nat)
    (hl : isLocked sa now = true) :
    superAdminLogin sa pw now = (LoginOutcome.locked sa.locked_until, sa) := by
  simp [superAdminLogin, hl]

/-- Claim C3 (code bug): on a successful login the source is meant to reset
the attempt counter to 0, REMOVE `locked_until`, and update `last_login`
(its own comment reads "Remove lock if it exists"), but the
`delete updates.locked_until` acts on the in-memory update object instead
of the stored field.  Evaluating the login at a record whose expired lock
is still stored: the counter and `last_login` are updated, yet
`locked_until` survives in the stored record. -/
theorem spec_C3_reset_login_attempts_keeps_lock :
    superAdminLogin (SuperAdminRec.mk "sa1" true 3 (some 50) none) true 100 =
      (LoginOutcome.success, SuperAdminRec.mk "sa1" true 0 (some 50) (some 100)) ∧
    (resetLoginAttempts (SuperAdminRec.mk "sa1" true 3 (some 50) none) 100).locked_until ≠
      none := by
  refine ⟨rfl, ?_⟩
  simp [resetLoginAttempts]

/-- Claim C5: failed credential checks increment the persisted attempt
counter; the 5th failure on an unlocked account sets
`locked_until = now + 2h` so that a 6th attempt within the window is
rejected as locked; and a failed attempt after an expired lock restarts
the counter at 1. -/
theorem spec_C5_login_attempt_lockout (sa : SuperAdminRec) (now : Nat) :
    ((∀ t, sa.locked_until = some t → ¬ t < now) →
      (incrementLoginAttempts sa now).login_attempts = sa.login_attempts + 1) ∧
    ((∀ t, sa.locked_until = some t → ¬ t < now) →
      sa.login_attempts + 1 ≥ 5 → isLocked sa now = false →
      (incrementLoginAttempts sa now).locked_until = some (now + twoHoursMs)) ∧
    (∀ t, sa.locked_until = some t → t < now →
      (incrementLoginAttempts sa now).login_attempts = 1) ∧
    (sa.login_attempts = 0 → sa.locked_until = none →
      (failedLogins sa now 5).locked_until = some (now + twoHoursMs) ∧
      (failedLogins sa now 5).login_attempts = 5 ∧
      ∀ pw now2, now2 < now + twoHoursMs →
        (superAdminLogin (failedLogins sa now 5) pw now2).fst =
          LoginOutcome.locked (some (now + twoHoursMs))) := by
  have notExpired : (∀ t, sa.locked_until = some t → ¬ t < now) →
      lockExpired sa now = false := by
    intro hexp
    cases h : sa.locked_until with
    | none => exact lockExpired_none sa now h
    | some t => exact lockExpired_false_of_some sa now t h (hexp t h)
  refine ⟨?_, ?_, ?_, ?_⟩
  · intro hexp
    rw [incrementLoginAttempts_not_expired sa now (notExpired hexp)]
    exact incrementStep_attempts sa now
  · intro hexp h5 hu
    rw [incrementLoginAttempts_not_expired sa now (notExpired hexp)]
    exact incrementStep_locks sa now h5 hu
  · intro t ht hlt
    rw [incrementLoginAttempts_expired sa now (lockExpired_true_of_some sa now t ht hlt)]
  · intro h0 hnone
    have step : ∀ k : Nat, k + 1 < 5 →
        (superAdminLogin { sa with login_attempts := k } false now).snd =
          { sa with login_attempts := k + 1 } := by
      intro k hk
      rw [superAdminLogin_failed { sa with login_attempts := k } now
        (isLocked_none { sa with login_attempts := k } now hnone)]
      rw [incrementLoginAttempts_not_expired { sa with login_attempts := k } now
        (lockExpired_none { sa with login_attempts := k } now hnone)]
      exact incrementStep_low { sa with login_attempts := k } now
        (by show ¬ k + 1 ≥ 5; omega)
    have hsa : sa = { sa with login_attempts := 0 } := by
      rw [← h0]
    have f1 : failedLogins sa now 1 = { sa with login_attempts := 1 } := by
      show (superAdminLogin sa false now).snd = _
      rw [hsa, step 0 (by omega)]
    have f2 : failedLogins sa now 2 = { sa with login_attempts := 2 } := by
      show (superAdminLogin (failedLogins sa now 1) false now).snd = _
      rw [f1, step 1 (by omega)]
    have f3 : failedLogins sa now 3 = { sa with login_attempts := 3 } := by
      show (superAdminLogin (failedLogins sa now 2) false now).snd = _
      rw [f2, step 2 (by omega)]
    have f4 : failedLogins sa now 4 = { sa with login_attempts := 4 } := by
      show (superAdminLogin (failedLogins sa now 3) false now).snd = _
      rw [f3, step 3 (by omega)]
    have f5 : failedLogins sa now 5 =
        { sa with login_attempts := 5, locked_until := some (now + twoHoursMs) } := by
      show (superAdminLogin (failedLogins sa now 4) false now).snd = _
      rw [f4]
      rw [superAdminLogin_failed { sa with login_attempts := 4 } now
        (isLocked_none { sa with login_attempts := 4 } now hnone)]
      rw [incrementLoginAttempts_not_expired { sa with login_attempts := 4 } now
        (lockExpired_none { sa with login_attempts := 4 } now hnone)]
      unfold incrementStep
      rw [if_pos ⟨by show 4 + 1 ≥ 5; omega,
        isLocked_none { sa with login_attempts := 4 } now hnone⟩]
    refine ⟨by rw [f5], by rw [f5], ?_⟩
    intro pw now2 hnow2
    have hlu : (failedLogins sa now 5).locked_until = some (now + twoHoursMs) := by
      rw [f5]
    have hlock : isLocked (failedLogins sa now 5) now2 = true := by
      simp [isLocked, hlu, hnow2]
    rw [superAdminLogin_locked _ pw now2 hlock]
    simp [hlu]

/-- Concrete instantiation of the C5 theorem: counter increments, an
expired lock restarts the counter at 1, five failures at time 1000 lock
the fresh account for two hours, and a sixth attempt at time 2000 is
rejected as locked. -/
theorem spec_C5_login_attempt_lockout_witness :
    (incrementLoginAttempts (SuperAdminRec.mk "sa1" true 2 none none) 1000).login_attempts = 3 ∧
    (incrementLoginAttempts (SuperAdminRec.mk "sa1" true 7 (some 500) none) 1000).login_attempts = 1 ∧
    (failedLogins (SuperAdminRec.mk "sa1" true 0 none none) 1000 5).locked_until =
      some (1000 + twoHoursMs) ∧
    (superAdminLogin (failedLogins (SuperAdminRec.mk "sa1" true 0 none none) 1000 5)
        false 2000).fst = LoginOutcome.locked (some (1000 + twoHoursMs)) := by
  have h1 := spec_C5_login_attempt_lockout (SuperAdminRec.mk "sa1" true 2 none none) 1000
  have h2 := spec_C5_login_attempt_lockout (SuperAdminRec.mk "sa1" true 7 (some 500) none) 1000
  have h3 := spec_C5_login_attempt_lockout (SuperAdminRec.mk "sa1" true 0 none none) 1000
  refine ⟨?_, ?_, ?_, ?_⟩
  · exact h1.1 (fun t ht => Option.noConfusion ht)
  · exact h2.2.2.1 500 rfl (by decide)
  · exact (h3.2.2.2 rfl rfl).1
  · exact (h3.2.2.2 rfl rfl).2.2 false 2000 (by decide)

/-- Decoded JWT claims.  The user token shape (`JWTPayload` in the auth
middleware) has no `type` field, so user tokens carry `type = none`; super
admin tokens (`SuperAdminJWTPayload`) carry `type = some "super_admin"`. -/
structure TokenClaims where
  id : String
  role : String
  type : Option String
  tenant_id : Option String
  clinic_id : Option String
deriving DecidableEq, Repr

/-- A persisted User document (the fields the auth middleware touches). -/
structure UserRec where
  _id : String
  role : String
  is_active : Bool
  tenant_id : Option String
deriving DecidableEq, Repr

/-- JavaScript `a || b` on optional strings, as in
`decoded.tenant_id || user.tenant_id?.toString()`. -/
def jsOrStr : Option String → Option String → Option String
  | some a, b => if a = "" then b else some a
  | none, b => b

/-- Result of the user `authenticate` middleware: the request context it
attaches on success, or the terminal error response. -/
inductive UserAuthResult where
  | ok (user : UserRec) (tenantCtx : Option String) (clinicCtx : Option String)
  | err (status : Nat) (message : String)
deriving DecidableEq, Repr

def findUserById (users : List UserRec) (i : String) : Option UserRec :=
  users.find? (fun u => u._id == i)

/-- Embedding of the user `authenticate` middleware, starting after a
successful signature check: it looks the user up by the token id and
checks the active flag; it never consults the token's `type`/`role`
discriminator. -/
def authenticate (claims : TokenClaims) (users : List UserRec) : UserAuthResult :=
  match findUserById users claims.id with
  | none => UserAuthResult.err 401 "Invalid token. User not found."
  | some u =>
    if u.is_active = false then UserAuthResult.err 401 "Account is deactivated."
    else UserAuthResult.ok u (jsOrStr claims.tenant_id u.tenant_id) claims.clinic_id

/-- Result of the `authenticateSuperAdmin` middleware. -/
inductive SAAuthResult where
  | ok (superAdminId : String)
  | err (status : Nat) (message : String)
deriving DecidableEq, Repr

def findSuperAdminById (store : List SuperAdminRec) (i : String) :
    Option SuperAdminRec :=
  store.find? (fun s => s._id == i)

/-- Embedding of `authenticateSuperAdmin` (middleware/superAdminAuth),
starting after a successful signature check: the `type`/`role`
discriminator is checked first, then the record lookup, active flag and
lock state. -/
def authenticateSuperAdmin (claims : TokenClaims) (store : List SuperAdminRec)
    (now : Nat) : SAAuthResult :=
  if claims.type ≠ some "super_admin" ∨ claims.role ≠ "super_admin" then
    SAAuthResult.err 401 "Invalid token. Super admin access required."
  else
    match findSuperAdminById store claims.id with
    | none => SAAuthResult.err 401 "Invalid token. Super admin not found."
    | some s =>
      if s.is_active = false then
        SAAuthResult.err 401 "Super admin account is deactivated."
      else if isLocked s now = true then
        SAAuthResult.err 423 "Super admin account is temporarily locked."
      else SAAuthResult.ok s._id

/-- Claim C2 counterexample: a token minted for a SuperAdmin (discriminator
`type = role = super_admin`) presented at the user route, where the
embedded id coincides with a User document id, is ACCEPTED by
`authenticate` (which never checks the discriminator) instead of failing
with 401 as the claim requires. -/
theorem spec_C2_superadmin_token_accepted_at_user_route :
    authenticate (TokenClaims.mk "a1" "super_admin" (some "super_admin") none none)
        [UserRec.mk "a1" "admin" true (some "t1")] =
      UserAuthResult.ok (UserRec.mk "a1" "admin" true (some "t1")) (some "t1") none := by
  rfl

/-- Claim C2 (amended): a token minted for a User (its payload shape has no
`type` discriminator) is always rejected with 401 at a SuperAdmin-only
route, even when its id matches a SuperAdmin document; a token minted for
a SuperAdmin is rejected at a User route only when no User document has
the embedded id. -/
theorem spec_C2_principal_type_mismatch (claims : TokenClaims)
    (store : List SuperAdminRec) (users : List UserRec) (now : Nat) :
    (claims.type ≠ some "super_admin" ∨ claims.role ≠ "super_admin" →
      authenticateSuperAdmin claims store now =
        SAAuthResult.err 401 "Invalid token. Super admin access required.") ∧
    (findUserById users claims.id = none →
      authenticate claims users =
        UserAuthResult.err 401 "Invalid token. User not found.") := by
  constructor
  · intro h
    unfold authenticateSuperAdmin
    rw [if_pos h]
  · intro h
    unfold authenticate
    rw [h]

/-- Concrete instantiation of the amended C2 theorem: a user token whose id
matches a SuperAdmin document still fails the super-admin route with 401,
and a super-admin token whose id matches no User document fails the user
route with 401. -/
theorem spec_C2_principal_type_mismatch_witness :
    authenticateSuperAdmin (TokenClaims.mk "a1" "admin" none (some "t1") none)
        [SuperAdminRec.mk "a1" true 0 none none] 1000 =
      SAAuthResult.err 401 "Invalid token. Super admin access required." ∧
    authenticate (TokenClaims.mk "sa9" "super_admin" (some "super_admin") none none)
        [UserRec.mk "u1" "admin" true (some "t1")] =
      UserAuthResult.err 401 "Invalid token. User not found." := by
  have h1 := spec_C2_principal_type_mismatch
    (TokenClaims.mk "a1" "admin" none (some "t1") none)
    [SuperAdminRec.mk "a1" true 0 none none]
    [UserRec.mk "u1" "admin" true (some "t1")] 1000
  have h2 := spec_C2_principal_type_mismatch
    (TokenClaims.mk "sa9" "super_admin" (some "super_admin") none none)
    [SuperAdminRec.mk "a1" true 0 none none]
    [UserRec.mk "u1" "admin" true (some "t1")] 1000
  exact ⟨h1.1 (Or.inl (by decide)), h2.2 (by decide)⟩

/-- Mongoose semantics for a query field whose value may be `undefined`:
an `undefined` value is stripped from the query (matches everything),
otherwise the stored field must equal the value. -/
def optFieldMatches (field : Option String) (queryVal : Option String) : Bool :=
  match queryVal with
  | none => true
  | some v => field == some v

/-- An Appointment document (the fields the patient-access logic touches). -/
structure AppointmentRec where
  patient_id : String
  doctor_id : Option String
  nurse_id : Option String
  tenant_id : Option String
deriving DecidableEq, Repr

/-- A Prescription document (the fields the patient-access logic touches). -/
structure PrescriptionDoc where
  patient_id : String
  doctor_id : Option String
  tenant_id : Option String
deriving DecidableEq, Repr

/-- A Patient document (the fields the patient-access logic touches). -/
structure PatientRec where
  _id : String
  tenant_id : Option String
  clinic_id : Option String
deriving DecidableEq, Repr

/-- The collections `PatientController` queries. -/
structure ClinicDB where
  patients : List PatientRec
  appointments : List AppointmentRec
  prescriptions : List PrescriptionDoc
deriving DecidableEq, Repr

/-- The permission check of `PatientController.getPatientById`: admins and
super admins pass; a doctor needs an appointment or prescription linking
them to the patient (tenant-filtered); a nurse needs an appointment as the
assigned nurse; every other role passes. -/
def patientViewPermission (req : AuthReq) (db : ClinicDB) (pid : String) : Bool :=
  if req.userRole = some "super_admin" ∨ req.userRole = some "admin" then true
  else if req.userRole = some "doctor" then
    (db.appointments.any (fun a =>
      optFieldMatches a.tenant_id req.tenant_id && a.patient_id == pid &&
      optFieldMatches a.doctor_id req.userId)) ||
    (db.prescriptions.any (fun p =>
      optFieldMatches p.tenant_id req.tenant_id && p.patient_id == pid &&
      optFieldMatches p.doctor_id req.userId))
  else if req.userRole = some "nurse" then
    db.appointments.any (fun a =>
      optFieldMatches a.tenant_id req.tenant_id && a.patient_id == pid &&
      optFieldMatches a.nurse_id req.userId)
  else true

/-- Outcome of a patient-resource handler. -/
inductive HandlerResult where
  | ok (patientId : String)
  | notFound
  | forbidden
  | badRequest
deriving DecidableEq, Repr

/-- The `Patient.findOne(getTenantScopedFilter(req, ...))` step of
`getPatientById`; a thrown tenant-context error is caught and mapped to
400. -/
def patientScopedFind (req : AuthReq) (db : ClinicDB) (pid : String) : HandlerResult :=
  if req.userRole = some "super_admin" then
    match db.patients.find? (fun p => p._id == pid &&
        optFieldMatches p.clinic_id req.clinic_id) with
    | some p => HandlerResult.ok p._id
    | none => HandlerResult.notFound
  else
    match req.tenant_id with
    | none => HandlerResult.badRequest
    | some t =>
      if t = "" then HandlerResult.badRequest
      else
        match db.patients.find? (fun p => p._id == pid &&
            optFieldMatches p.clinic_id req.clinic_id && p.tenant_id == some t) with
        | some p => HandlerResult.ok p._id
        | none => HandlerResult.notFound

/-- Embedding of `PatientController.getPatientById`: permission check,
then the tenant-scoped lookup. -/
def getPatientById (req : AuthReq) (db : ClinicDB) (pid : String) : HandlerResult :=
  if patientViewPermission req db pid = false then HandlerResult.forbidden
  else patientScopedFind req db pid

/-- Embedding of the selection logic of `PatientController.getAllPatients`
(pagination, search and the last-visit side effects omitted).  The doctor
branch returns the tenant-scoped list UNRESTRICTED, mirroring the
source's "TEMPORARY: Allow doctors to see all patients for development"
bypass of the appointment/prescription restriction; the nurse branch is
restricted to patients with an appointment naming the nurse. -/
def getAllPatients (req : AuthReq) (db : ClinicDB) : Except String (List PatientRec) :=
  if req.userRole = some "super_admin" then
    Except.ok (db.patients.filter (fun p => optFieldMatches p.clinic_id req.clinic_id))
  else
    match req.tenant_id with
    | none => Except.error "Tenant context is required for this operation"
    | some t =>
      if t = "" then Except.error "Tenant context is required for this operation"
      else
        let base := db.patients.filter (fun p =>
          p.tenant_id == some t && optFieldMatches p.clinic_id req.clinic_id)
        if req.userRole = some "doctor" then
          Except.ok base
        else if req.userRole = some "nurse" then
          let apptPatients := (db.appointments.filter
            (fun a => optFieldMatches a.nurse_id req.userId)).map
              (fun a => a.patient_id)
          Except.ok (base.filter (fun p => apptPatients.contains p._id))
        else Except.ok base

/-- Claim C6 (code bug): by-id access behaves as claimed — a doctor with no
appointment or prescription link to patient `p1` gets 403, and once a
linking appointment exists the same request returns the patient — but the
claimed general restriction of doctors to linked resources is violated by
the patient list: with zero links, `getAllPatients` still returns `p1` to
the doctor, because the source's restriction is commented out behind a
"TEMPORARY ... for development" TODO. -/
theorem spec_C6_doctor_patient_link :
    getPatientById (AuthReq.mk (some "doctor") (some "d1") (some "t1") (some "c1"))
        (ClinicDB.mk [PatientRec.mk "p1" (some "t1") (some "c1")] [] []) "p1" =
      HandlerResult.forbidden ∧
    getPatientById (AuthReq.mk (some "doctor") (some "d1") (some "t1") (some "c1"))
        (ClinicDB.mk [PatientRec.mk "p1" (some "t1") (some "c1")]
          [AppointmentRec.mk "p1" (some "d1") none (some "t1")] []) "p1" =
      HandlerResult.ok "p1" ∧
    getAllPatients (AuthReq.mk (some "doctor") (some "d1") (some "t1") (some "c1"))
        (ClinicDB.mk [PatientRec.mk "p1" (some "t1") (some "c1")] [] []) =
      Except.ok [PatientRec.mk "p1" (some "t1") (some "c1")] := by
  refine ⟨rfl, rfl, rfl⟩

/-- A Tenant document (the fields the uniqueness logic touches). -/
structure TenantRec where
  _id : String
  slug : String
  subdomain : Option String
  deleted_at : Option Nat
deriving DecidableEq, Repr

/-- JavaScript `toLowerCase()` for the ASCII slugs/subdomains the tenant
schema accepts (structural recursion so that concrete instances evaluate). -/
def lowerChar (c : Char) : Char :=
  if 'A' ≤ c ∧ c ≤ 'Z' then Char.ofNat (c.toNat + 32) else c

def toLowerStr (s : String) : String :=
  String.mk (s.data.map lowerChar)

/-- The duplicate-slug check of `TenantController.createTenant`:
`Tenant.findOne({slug: slug.toLowerCase(), deleted_at: {$exists: false}})`
— only non-deleted tenants are consulted. -/
def slugConflictOnCreate (store : List TenantRec) (slug : String) : Bool :=
  store.any (fun t => t.slug == toLowerStr slug && t.deleted_at == none)

/-- The duplicate-subdomain check of `TenantController.createTenant`. -/
def subdomainConflictOnCreate (store : List TenantRec) (sd : String) : Bool :=
  store.any (fun t => t.subdomain == some (toLowerStr sd) && t.deleted_at == none)

/-- The duplicate-slug check of `TenantController.updateTenant`: same as on
create but excluding the tenant being updated. -/
def slugConflictOnUpdate (store : List TenantRec) (i slug : String) : Bool :=
  store.any (fun t => t.slug == toLowerStr slug && !(t._id == i) && t.deleted_at == none)

/-- The duplicate-subdomain check of `TenantController.updateTenant`: same
as on create but excluding the tenant being updated. -/
def subdomainConflictOnUpdate (store : List TenantRec) (i sd : String) : Bool :=
  store.any (fun t =>
    t.subdomain == some (toLowerStr sd) && !(t._id == i) && t.deleted_at == none)

/-- Outcome of `TenantController.createTenant`. -/
inductive TenantCreateResult where
  | conflict409 (message : String)
  | created201 (t : TenantRec)
deriving DecidableEq, Repr

/-- Embedding of `TenantController.createTenant`: reject on a slug or
subdomain collision with a non-deleted tenant, otherwise persist the new
tenant (slug and subdomain lowercased, `deleted_at` unset). -/
def createTenant (store : List TenantRec) (newId slug : String)
    (subdomain : Option String) : TenantCreateResult × List TenantRec :=
  if slugConflictOnCreate store slug = true then
    (TenantCreateResult.conflict409 "A tenant with this slug already exists", store)
  else
    match subdomain with
    | some sd =>
      if subdomainConflictOnCreate store sd = true then
        (TenantCreateResult.conflict409 "A tenant with this subdomain already exists", store)
      else
        (TenantCreateResult.created201 (TenantRec.mk newId (toLowerStr slug) (some (toLowerStr sd)) none),
         store ++ [TenantRec.mk newId (toLowerStr slug) (some (toLowerStr sd)) none])
    | none =>
      (TenantCreateResult.created201 (TenantRec.mk newId (toLowerStr slug) none none),
       store ++ [TenantRec.mk newId (toLowerStr slug) none none])

/-- Embedding of `TenantController.deleteTenant`: soft delete by setting
`deleted_at` on the non-deleted tenant with the given id. -/
def softDeleteTenant (store : List TenantRec) (i : String) (now : Nat) :
    List TenantRec :=
  store.map (fun t =>
    if t._id = i ∧ t.deleted_at = none then { t with deleted_at := some now } else t)

/-- Claim C9: creating a tenant whose slug or subdomain collides with a
non-deleted tenant is rejected with the matching 409 duplicate message and
the store is unchanged; the create-time and update-time slug and subdomain
checks consult exactly the non-deleted tenants (the update checks also
excluding the tenant being updated); and once every non-deleted holder of
the slug is soft-deleted, creating a tenant with that slug succeeds. -/
theorem spec_C9_slug_uniqueness (store : List TenantRec) (newId slug i sd2 : String)
    (sd : Option String) (now : Nat) :
    (slugConflictOnCreate store slug = true ↔
      ∃ t ∈ store, t.slug = toLowerStr slug ∧ t.deleted_at = none) ∧
    (slugConflictOnCreate store slug = true →
      createTenant store newId slug sd =
        (TenantCreateResult.conflict409 "A tenant with this slug already exists", store)) ∧
    (subdomainConflictOnCreate store sd2 = true ↔
      ∃ t ∈ store, t.subdomain = some (toLowerStr sd2) ∧ t.deleted_at = none) ∧
    (slugConflictOnCreate store slug = false →
      subdomainConflictOnCreate store sd2 = true →
      createTenant store newId slug (some sd2) =
        (TenantCreateResult.conflict409 "A tenant with this subdomain already exists", store)) ∧
    (slugConflictOnUpdate store i slug = true ↔
      ∃ t ∈ store, t.slug = toLowerStr slug ∧ t._id ≠ i ∧ t.deleted_at = none) ∧
    (subdomainConflictOnUpdate store i sd2 = true ↔
      ∃ t ∈ store, t.subdomain = some (toLowerStr sd2) ∧ t._id ≠ i ∧ t.deleted_at = none) ∧
    ((∀ t ∈ store, t.deleted_at = none → t.slug = toLowerStr slug → t._id = i) →
      slugConflictOnCreate (softDeleteTenant store i now) slug = false ∧
      createTenant (softDeleteTenant store i now) newId slug none =
        (TenantCreateResult.created201 (TenantRec.mk newId (toLowerStr slug) none none),
         softDeleteTenant store i now ++ [TenantRec.mk newId (toLowerStr slug) none none])) := by
  refine ⟨?_, ?_, ?_, ?_, ?_, ?_, ?_⟩
  · simp [slugConflictOnCreate, List.any_eq_true]
  · intro hconf
    unfold createTenant
    rw [if_pos hconf]
  · simp [subdomainConflictOnCreate, List.any_eq_true]
  · intro hslug hsub
    simp [createTenant, hslug, hsub]
  · simp [slugConflictOnUpdate, List.any_eq_true, and_assoc]
  · simp [subdomainConflictOnUpdate, List.any_eq_true, and_assoc]
  · intro h
    have hnc : slugConflictOnCreate (softDeleteTenant store i now) slug = false := by
      unfold slugConflictOnCreate softDeleteTenant
      rw [List.any_eq_false]
      intro x hx
      rw [List.mem_map] at hx
      obtain ⟨t, htmem, rfl⟩ := hx
      by_cases hcond : t._id = i ∧ t.deleted_at = none
      · simp [hcond]
      · rw [if_neg hcond]
        simp only [Bool.and_eq_true, beq_iff_eq, not_and]
        intro hslug hdel
        exact hcond ⟨h t htmem hdel hslug, hdel⟩
    refine ⟨hnc, ?_⟩
    unfold createTenant
    rw [hnc]
    simp

/-- Concrete instantiation of the C9 theorem: slug `acme-medical` and
subdomain `acme` are taken by a non-deleted tenant, so creation conflicts
on each; the update-time subdomain check fires for another tenant id; and
after soft-deleting the holder, creating with the slug succeeds. -/
theorem spec_C9_slug_uniqueness_witness :
    createTenant [TenantRec.mk "t1" "acme-medical" (some "acme") none]
        "t2" "acme-medical" none =
      (TenantCreateResult.conflict409 "A tenant with this slug already exists",
       [TenantRec.mk "t1" "acme-medical" (some "acme") none]) ∧
    createTenant [TenantRec.mk "t1" "acme-medical" (some "acme") none]
        "t2" "fresh-clinic" (some "acme") =
      (TenantCreateResult.conflict409 "A tenant with this subdomain already exists",
       [TenantRec.mk "t1" "acme-medical" (some "acme") none]) ∧
    subdomainConflictOnUpdate [TenantRec.mk "t1" "acme-medical" (some "acme") none]
      "t9" "acme" = true ∧
    createTenant
        (softDeleteTenant [TenantRec.mk "t1" "acme-medical" (some "acme") none] "t1" 500)
        "t2" "acme-medical" none =
      (TenantCreateResult.created201 (TenantRec.mk "t2" "acme-medical" none none),
       softDeleteTenant [TenantRec.mk "t1" "acme-medical" (some "acme") none] "t1" 500 ++
         [TenantRec.mk "t2" "acme-medical" none none]) := by
  have h1 := spec_C9_slug_uniqueness
    [TenantRec.mk "t1" "acme-medical" (some "acme") none]
    "t2" "acme-medical" "t1" "acme" none 500
  have h2 := spec_C9_slug_uniqueness
    [TenantRec.mk "t1" "acme-medical" (some "acme") none]
    "t2" "fresh-clinic" "t9" "acme" (some "acme") 500
  refine ⟨h1.2.1 (by decide), h2.2.2.2.1 (by decide) (by decide), ?_,
    (h1.2.2.2.2.2.2 (by decide)).2⟩
  exact h2.2.2.2.2.2.1.mpr (by decide)

/-- A Role document: name plus its associated permission set. -/
structure RoleDoc where
  name : String
  permissions : List String
deriving DecidableEq, Repr

/-- A `permission_overrides` entry of a UserClinic document. -/
structure PermissionOverride where
  permission_name : String
  granted : Bool
deriving DecidableEq, Repr

/-- Modelled from the spec: the `UserClinic` model file implementing
`getEffectivePermissions` is not among the provided sources (only its call
sites in the controllers are), so the computation is modelled from the
spec's algorithm.  This is the first phase: start with the empty set and
union the permission set of each assigned role. -/
def rolePermissions (roles : List RoleDoc) : List String :=
  roles.foldl (fun acc r => acc ++ r.permissions) []

/-- Modelled from the spec: apply one `permission_overrides` entry, forcing
membership of `permission_name` to `granted` (a deny removes the
permission even if a role granted it; a grant adds it). -/
def applyOverride (perms : List String) (o : PermissionOverride) : List String :=
  if o.granted = true then
    (if o.permission_name ∈ perms then perms else perms ++ [o.permission_name])
  else perms.filter (fun p => p != o.permission_name)

/-- Modelled from the spec: `getEffectivePermissions` of a UserClinic -
the union of the assigned roles' permission sets, with the
`permission_overrides` entries then applied in array order. -/
def getEffectivePermissions (roles : List RoleDoc)
    (overrides : List PermissionOverride) : List String :=
  overrides.foldl applyOverride (rolePermissions roles)

/-- The decision the override list makes about permission `p`: the entry
naming `p` applied last wins; `none` when no entry names `p`. -/
def overrideDecision (overrides : List PermissionOverride) (p : String) :
    Option Bool :=
  match overrides with
  | [] => none
  | o :: rest =>
    match overrideDecision rest p with
    | some b => some b
    | none => if o.permission_name = p then some o.granted else none

theorem overrideDecision_cons (o : PermissionOverride)
    (rest : List PermissionOverride) (p : String) :
    overrideDecision (o :: rest) p =
      match overrideDecision rest p with
      | some b => some b
      | none => if o.permission_name = p then some o.granted else none := rfl

theorem mem_applyOverride (s : List String) (o : PermissionOverride) (p : String) :
    p ∈ applyOverride s o ↔
      (if o.permission_name = p then o.granted = true else p ∈ s) := by
  unfold applyOverride
  by_cases hx : o.permission_name = p
  · subst hx
    rw [if_pos rfl]
    by_cases hg : o.granted = true
    · rw [if_pos hg]
      by_cases hp : o.permission_name ∈ s
      · rw [if_pos hp]
        exact ⟨fun _ => hg, fun _ => hp⟩
      · rw [if_neg hp]
        constructor
        · intro _
          exact hg
        · intro _
          exact List.mem_append.mpr (Or.inr (List.mem_singleton.mpr rfl))
    · rw [if_neg hg]
      constructor
      · intro hmem
        have hne := (List.mem_filter.mp hmem).2
        simp at hne
      · intro hgr
        exact absurd hgr hg
  · rw [if_neg hx]
    by_cases hg : o.granted = true
    · rw [if_pos hg]
      by_cases hp : o.permission_name ∈ s
      · rw [if_pos hp]
      · rw [if_neg hp, List.mem_append]
        constructor
        · rintro (h | h)
          · exact h
          · exact absurd (List.mem_singleton.mp h).symm hx
        · intro h
          exact Or.inl h
    · rw [if_neg hg, List.mem_filter]
      constructor
      · rintro ⟨h, _⟩
        exact h
      · intro h
        refine ⟨h, ?_⟩
        simp only [bne_iff_ne, ne_eq]
        exact fun he => hx he.symm

theorem mem_foldl_applyOverride (os : List PermissionOverride) (s : List String)
    (p : String) :
    p ∈ os.foldl applyOverride s ↔
      (match overrideDecision os p with
       | some b => b = true
       | none => p ∈ s) := by
  induction os generalizing s with
  | nil => simp [overrideDecision]
  | cons o rest ih =>
    rw [List.foldl_cons, ih (applyOverride s o)]
    cases hd : overrideDecision rest p with
    | some b => simp [overrideDecision_cons, hd]
    | none =>
      by_cases hx : o.permission_name = p
      · simp [overrideDecision_cons, hd, hx, mem_applyOverride]
      · simp [overrideDecision_cons, hd, hx, mem_applyOverride]

theorem mem_foldl_union (roles : List RoleDoc) (init : List String) (p : String) :
    p ∈ roles.foldl (fun acc r => acc ++ r.permissions) init ↔
      p ∈ init ∨ ∃ r ∈ roles, p ∈ r.permissions := by
  induction roles generalizing init with
  | nil => simp
  | cons r rest ih =>
    rw [List.foldl_cons, ih]
    simp [List.mem_append, or_assoc]

theorem mem_rolePermissions (roles : List RoleDoc) (p : String) :
    p ∈ rolePermissions roles ↔ ∃ r ∈ roles, p ∈ r.permissions := by
  unfold rolePermissions
  rw [mem_foldl_union]
  simp

theorem overrideDecision_eq_none (os : List PermissionOverride) (p : String) :
    overrideDecision os p = none ↔ ∀ o ∈ os, o.permission_name ≠ p := by
  induction os with
  | nil => simp [overrideDecision]
  | cons o rest ih =>
    cases hd : overrideDecision rest p with
    | some b =>
      simp only [overrideDecision_cons, hd]
      constructor
      · intro h
        exact Option.noConfusion h
      · intro hall
        have h2 := ih.mpr (fun x hx => hall x (List.mem_cons_of_mem o hx))
        rw [h2] at hd
        exact Option.noConfusion hd
    | none =>
      simp only [overrideDecision_cons, hd]
      by_cases hx : o.permission_name = p
      · rw [if_pos hx]
        constructor
        · intro h
          exact Option.noConfusion h
        · intro hall
          exact absurd hx (hall o (List.mem_cons_self o rest))
      · rw [if_neg hx]
        constructor
        · intro _ x hxmem
          rcases List.mem_cons.mp hxmem with h | h
          · rw [h]
            exact hx
          · exact (ih.mp hd) x h
        · intro _
          rfl

theorem overrideDecision_some_mem (os : List PermissionOverride) (p : String)
    (b : Bool) (h : overrideDecision os p = some b) :
    ∃ o ∈ os, o.permission_name = p ∧ o.granted = b := by
  induction os with
  | nil => exact absurd h (by simp [overrideDecision])
  | cons o rest ih =>
    rw [overrideDecision_cons] at h
    cases hd : overrideDecision rest p with
    | some b2 =>
      simp only [hd, Option.some.injEq] at h
      rw [h] at hd
      obtain ⟨x, hx, hxp, hxg⟩ := ih hd
      exact ⟨x, List.mem_cons_of_mem o hx, hxp, hxg⟩
    | none =>
      simp only [hd] at h
      by_cases hx : o.permission_name = p
      · rw [if_pos hx] at h
        injection h with hb
        exact ⟨o, List.mem_cons_self o rest, hx, hb⟩
      · rw [if_neg hx] at h
        exact Option.noConfusion h

theorem overrideDecision_unique (os : List PermissionOverride) (p : String)
    (o : PermissionOverride)
    (hnod : (os.map PermissionOverride.permission_name).Nodup)
    (hmem : o ∈ os) (hname : o.permission_name = p) :
    overrideDecision os p = some o.granted := by
  induction os with
  | nil => exact absurd hmem (List.not_mem_nil o)
  | cons a rest ih =>
    rw [List.map_cons, List.nodup_cons] at hnod
    rcases List.mem_cons.mp hmem with h | h
    · subst h
      have hrest : overrideDecision rest p = none := by
        rw [overrideDecision_eq_none]
        intro x hxmem hxp
        exact hnod.1 (List.mem_map.mpr ⟨x, hxmem, hxp.trans hname.symm⟩)
      rw [overrideDecision_cons, hrest, if_pos hname]
    · have h2 := ih hnod.2 h
      rw [overrideDecision_cons, h2]

theorem overrideDecision_perm (os os2 : List PermissionOverride) (p : String)
    (hperm : os.Perm os2)
    (hnod : (os.map PermissionOverride.permission_name).Nodup) :
    overrideDecision os p = overrideDecision os2 p := by
  have hnod2 : (os2.map PermissionOverride.permission_name).Nodup :=
    ((hperm.map PermissionOverride.permission_name).nodup_iff).mp hnod
  cases h1 : overrideDecision os p with
  | none =>
    have hall := (overrideDecision_eq_none os p).mp h1
    have hall2 : ∀ o ∈ os2, o.permission_name ≠ p :=
      fun o ho => hall o (hperm.symm.subset ho)
    exact ((overrideDecision_eq_none os2 p).mpr hall2).symm
  | some b =>
    obtain ⟨o, ho, hop, hog⟩ := overrideDecision_some_mem os p b h1
    rw [overrideDecision_unique os2 p o hnod2 (hperm.subset ho) hop, hog]

/-- Claim C4 counterexample: two `permission_overrides` entries targeting
the same permission name with opposite `granted` flags; the two orderings
of the same entries give different effective sets, so
`getEffectivePermissions` is not invariant under every permutation of the
overrides array. -/
theorem spec_C4_override_order_counterexample :
    List.Perm
      [PermissionOverride.mk "x" false, PermissionOverride.mk "x" true]
      [PermissionOverride.mk "x" true, PermissionOverride.mk "x" false] ∧
    "x" ∈ getEffectivePermissions []
      [PermissionOverride.mk "x" false, PermissionOverride.mk "x" true] ∧
    "x" ∉ getEffectivePermissions []
      [PermissionOverride.mk "x" true, PermissionOverride.mk "x" false] := by
  refine ⟨by decide, by decide, by decide⟩

/-- Claim C4 (amended): a permission is effective iff the last override
naming it says `granted = true`, or no override names it and some assigned
role grants it - so a deny override removes a role-granted permission and
a grant override adds one; the result is invariant under every permutation
of the roles array, and invariant under permutations of the overrides
array provided no two override entries target the same permission name
(with conflicting duplicate entries, array order decides - the spec itself
leaves duplicate precedence open). -/
theorem spec_C4_effective_permissions (roles roles2 : List RoleDoc)
    (os os2 : List PermissionOverride) (p : String) :
    (p ∈ getEffectivePermissions roles os ↔
      (match overrideDecision os p with
       | some b => b = true
       | none => ∃ r ∈ roles, p ∈ r.permissions)) ∧
    (roles.Perm roles2 →
      (p ∈ getEffectivePermissions roles os ↔
        p ∈ getEffectivePermissions roles2 os)) ∧
    (os.Perm os2 → (os.map PermissionOverride.permission_name).Nodup →
      (p ∈ getEffectivePermissions roles os ↔
        p ∈ getEffectivePermissions roles os2)) := by
  have hchar : ∀ (rs : List RoleDoc) (xs : List PermissionOverride),
      (p ∈ getEffectivePermissions rs xs ↔
        (match overrideDecision xs p with
         | some b => b = true
         | none => ∃ r ∈ rs, p ∈ r.permissions)) := by
    intro rs xs
    unfold getEffectivePermissions
    rw [mem_foldl_applyOverride]
    cases hd : overrideDecision xs p with
    | some b => simp
    | none => simp [mem_rolePermissions]
  refine ⟨hchar roles os, ?_, ?_⟩
  · intro hperm
    rw [hchar roles os, hchar roles2 os]
    cases hd : overrideDecision os p with
    | some b => simp
    | none =>
      simp only []
      constructor
      · rintro ⟨r, hr, hp⟩
        exact ⟨r, hperm.subset hr, hp⟩
      · rintro ⟨r, hr, hp⟩
        exact ⟨r, hperm.symm.subset hr, hp⟩
  · intro hperm hnod
    rw [hchar roles os, hchar roles os2,
      overrideDecision_perm os os2 p hperm hnod]

/-- Concrete instantiation of the amended C4 theorem: permuting the roles
array and permuting a duplicate-free overrides array leave membership
unchanged. -/
theorem spec_C4_effective_permissions_witness :
    ("patients.read" ∈ getEffectivePermissions
        [RoleDoc.mk "doctor" ["patients.read"], RoleDoc.mk "nurse" ["vitals.write"]]
        [PermissionOverride.mk "patients.read" false,
         PermissionOverride.mk "billing.read" true] ↔
      "patients.read" ∈ getEffectivePermissions
        [RoleDoc.mk "nurse" ["vitals.write"], RoleDoc.mk "doctor" ["patients.read"]]
        [PermissionOverride.mk "patients.read" false,
         PermissionOverride.mk "billing.read" true]) ∧
    ("patients.read" ∈ getEffectivePermissions
        [RoleDoc.mk "doctor" ["patients.read"], RoleDoc.mk "nurse" ["vitals.write"]]
        [PermissionOverride.mk "patients.read" false,
         PermissionOverride.mk "billing.read" true] ↔
      "patients.read" ∈ getEffectivePermissions
        [RoleDoc.mk "doctor" ["patients.read"], RoleDoc.mk "nurse" ["vitals.write"]]
        [PermissionOverride.mk "billing.read" true,
         PermissionOverride.mk "patients.read" false]) := by
  have h := spec_C4_effective_permissions
    [RoleDoc.mk "doctor" ["patients.read"], RoleDoc.mk "nurse" ["vitals.write"]]
    [RoleDoc.mk "nurse" ["vitals.write"], RoleDoc.mk "doctor" ["patients.read"]]
    [PermissionOverride.mk "patients.read" false,
     PermissionOverride.mk "billing.read" true]
    [PermissionOverride.mk "billing.read" true,
     PermissionOverride.mk "patients.read" false]
    "patients.read"
  exact ⟨h.2.1 (by decide), h.2.2 (by decide) (by decide)⟩

end ClinicPro
